import Mathlib

/-!
Shallow embedding of the iSCSI initiator discovery subsystem
(usr/src/uts/common/io/scsi/adapters/iscsi/iscsid.c) and proofs of the
specification claims about it.

Pure control flow of each C function is translated into executable Lean
functions; external collaborators (persistent store, iscsi_sess_create,
iscsi_conn_create, iscsi_sess_destroy, iscsi_thread_start and stop, the
SendTargets ioctl, the iSNS client) are modelled as oracle fields of
environment structures, following the contracts stated in the spec.
-/

set_option maxHeartbeats 1000000

namespace IscsidModel

/-- Modelled from the spec: discovery-method bit values from the header
iscsi_if.h, which is not under src/.  The methods form a flag set with an
Unknown sentinel of value zero; the concrete bit assignment below follows
the spec order and is only used as four distinct single-bit values. -/
def methodUnknown : Nat := 0

/-- Static discovery method bit. -/
def methodStatic : Nat := 1

/-- SLP discovery method bit. -/
def methodSLP : Nat := 2

/-- iSNS discovery method bit. -/
def methodISNS : Nat := 4

/-- SendTargets discovery method bit. -/
def methodSendTargets : Nat := 8

/-- ISCSI_ALL_DISCOVERY_METHODS: union of the four method bits. -/
def allDiscoveryMethods : Nat := 15

/-- Unix EINVAL errno returned by iscsid_copyto_param_set on bad ids. -/
def EINVAL : Nat := 22

/-- The discovery thread table iscsid_thr, in source order (Static,
SendTarget, SLP, iSNS), dropping the Unknown sentinel terminator. -/
def iscsid_thr_methods : List Nat :=
  [methodStatic, methodSendTargets, methodSLP, methodISNS]

/-- The for_failure event table: fixed order Static, SLP, iSNS,
SendTargets, terminated in the source by the Unknown sentinel. -/
def for_failure : List Nat :=
  [methodStatic, methodSLP, methodISNS, methodSendTargets]

/-- Model of a sockaddr as built by iscsid_addr_to_sockaddr: an address
family tag (AF_INET or AF_INET6) together with the port and address
payload; all padding bytes are zeroed by the source before filling. -/
inductive SockAddr
  | v4 (addr : Nat) (port : Nat)
  | v6 (addr : Nat) (port : Nat)
deriving DecidableEq

/-- Denotation of bcmp(x, y, SIZEOF_SOCKADDR(y)) == 0 on two sockaddrs
zero-filled by iscsid_addr_to_sockaddr.  The compared prefix always
contains the family field first, so differing families compare unequal;
with equal families the compared prefix covers exactly the family, port
and address payload (padding is zero on both sides). -/
def sockaddrBcmpZero (x y : SockAddr) : Bool :=
  match x, y with
  | .v4 a p, .v4 b q => a == b && p == q
  | .v6 a p, .v6 b q => a == b && p == q
  | _, _ => false

/-- A session of the registry: the fields of iscsi_sess_t that iscsid.c
reads or writes.  sess_conn_act holds the base address of the active
connection when one exists; sess_conns the addresses of the connections
owned by the session. -/
structure Sess where
  sess_name : String
  sess_discovered_by : Nat
  sess_discovered_addr : SockAddr
  sess_tpgt : Int
  sess_isid : Nat
  sess_conn_act : Option SockAddr
  sess_conns : List SockAddr
deriving DecidableEq

/-- The session registry: the singly linked hba_sess_list. -/
abbrev Registry := List Sess

/-- Identity key of a session, spec invariant 1: no two sessions share
the same (target name, discovery method, discovery address, tpgt, isid
slot). -/
def sessKey (s : Sess) : String × Nat × SockAddr × Int × Nat :=
  (s.sess_name, s.sess_discovered_by, s.sess_discovered_addr,
   s.sess_tpgt, s.sess_isid)

/-- Spec invariant 1 for a registry: pairwise distinct session keys. -/
def KeyUnique (reg : Registry) : Prop :=
  reg.Pairwise (fun s t => sessKey s ≠ sessKey t)

/-! ## iscsid_del -/

/-- The name and discovery-method gate of iscsid_del: target_name NULL or
equal to sess_name, and sess_discovered_by equal to the method argument. -/
def nameMethodMatch (targetName : Option String) (method : Nat)
    (isp : Sess) : Bool :=
  (match targetName with
   | none => true
   | some n => isp.sess_name == n) && (isp.sess_discovered_by == method)

/-- The discovery-address predicate of iscsid_del deciding try_destroy,
translated branch for branch from the source: iSNS and SendTargets match
against sess_discovered_addr, Static against the active connection base
address, any other method matches vacuously. -/
def tryDestroyAddr (method : Nat) (addrDsc : Option SockAddr)
    (isp : Sess) : Bool :=
  if method = methodISNS ∨ method = methodSendTargets then
    match addrDsc with
    | none => true
    | some a => sockaddrBcmpZero a isp.sess_discovered_addr
  else if method = methodStatic then
    match addrDsc with
    | none => true
    | some a =>
      match isp.sess_conn_act with
      | none => false
      | some c => sockaddrBcmpZero a c
  else true

/-- The discovery-address predicate as worded by the specification, used
to state the refinement claim about tryDestroyAddr. -/
def tryDestroyAddrSpec (method : Nat) (addrDsc : Option SockAddr)
    (isp : Sess) : Prop :=
  if method = methodISNS ∨ method = methodSendTargets then
    addrDsc = none ∨
      ∃ a, addrDsc = some a ∧
        sockaddrBcmpZero a isp.sess_discovered_addr = true
  else if method = methodStatic then
    addrDsc = none ∨
      ∃ a c, addrDsc = some a ∧ isp.sess_conn_act = some c ∧
        sockaddrBcmpZero a c = true
  else True

/-- Oracle environment for iscsid_del: the outcome of iscsi_sess_destroy
on a given session.  On success the session is unlinked from the list;
on failure (busy downstream resource) it stays. -/
structure DelEnv where
  destroyOk : Sess → Bool

/-- The scan loop of iscsid_del.  pos is the position of the cursor isp
inside the current list; after a successful destroy the scan restarts
from the list head (pos 0) on the shrunk list, after a failed destroy or
a non-candidate it advances, a failed destroy also records the overall
result false. -/
def delLoop (env : DelEnv) (targetName : Option String) (method : Nat)
    (addrDsc : Option SockAddr) (reg : Registry) (pos : Nat)
    (rtn : Bool) : Bool × Registry :=
  if h : pos < reg.length then
    let isp := reg.get ⟨pos, h⟩
    if nameMethodMatch targetName method isp then
      if tryDestroyAddr method addrDsc isp then
        if env.destroyOk isp then
          delLoop env targetName method addrDsc (reg.eraseIdx pos) 0 rtn
        else
          delLoop env targetName method addrDsc reg (pos + 1) false
      else
        delLoop env targetName method addrDsc reg (pos + 1) rtn
    else
      delLoop env targetName method addrDsc reg (pos + 1) rtn
  else
    (rtn, reg)
termination_by (reg.length, reg.length - pos)
decreasing_by
  all_goals first
  | (apply Prod.Lex.left
     have := reg.length_eraseIdx_of_lt h
     omega)
  | (apply Prod.Lex.right
     omega)

/-- iscsid_del: attempt to destroy every matching session, returning the
overall result and the remaining registry. -/
def iscsid_del (env : DelEnv) (targetName : Option String) (method : Nat)
    (addrDsc : Option SockAddr) (reg : Registry) : Bool × Registry :=
  delLoop env targetName method addrDsc reg 0 true

/-! ## iscsid_add -/

/-- The argument tuple of one iscsid_add call. -/
structure AddArgs where
  method : Nat
  addrDsc : SockAddr
  targetName : String
  tpgt : Int
  addrTgt : SockAddr
deriving DecidableEq

/-- Oracle environment for iscsid_add.  configSess models
persistent_get_config_session as a deterministic map from a name to the
configured session count (none when the store has no record); the
two create oracles decide, per argument tuple and isid slot, whether an
actual creation by iscsi_sess_create or iscsi_conn_create succeeds
(finding an existing object never fails, per the create-or-find
contract of the spec). -/
structure AddEnv where
  hbaName : String
  configSess : String → Option Nat
  sessCreateOk : AddArgs → Nat → Bool
  connCreateOk : AddArgs → Nat → Bool

/-- The configured-session lookup of iscsid_add: first the target name,
else the initiator name, else the default of one session.  The probe,
reallocate, refetch sequence of the source collapses because the store
oracle is deterministic, making the refetch agree with the probe. -/
def lookupCount (env : AddEnv) (targetName : String) : Nat :=
  match env.configSess targetName with
  | some n => n
  | none =>
    match env.configSess env.hbaName with
    | some n => n
    | none => 1

/-- Modelled from the spec: the match predicate of iscsi_sess_create
(whose body is not under src/): a session matches when name, discovery
method, discovery address, tpgt and isid slot all agree. -/
def sessKeyMatch (a : AddArgs) (isid : Nat) (s : Sess) : Bool :=
  s.sess_name == a.targetName && s.sess_discovered_by == a.method &&
  s.sess_discovered_addr == a.addrDsc && s.sess_tpgt == a.tpgt &&
  s.sess_isid == isid

/-- Modelled from the spec: the session freshly created by
iscsi_sess_create for the given tuple and slot, owning no connection. -/
def newSess (a : AddArgs) (isid : Nat) : Sess :=
  { sess_name := a.targetName
    sess_discovered_by := a.method
    sess_discovered_addr := a.addrDsc
    sess_tpgt := a.tpgt
    sess_isid := isid
    sess_conn_act := none
    sess_conns := [] }

/-- Modelled from the spec: iscsi_conn_create as create-or-find on the
connections of one session. -/
def connAdd (addrTgt : SockAddr) (s : Sess) : Sess :=
  if addrTgt ∈ s.sess_conns then s
  else { s with sess_conns := s.sess_conns ++ [addrTgt] }

/-- Apply connAdd to the first session of the registry matching the
slot key, leaving all others unchanged. -/
def connAddReg (a : AddArgs) (isid : Nat) (addrTgt : SockAddr) :
    Registry → Registry
  | [] => []
  | s :: rest =>
    if sessKeyMatch a isid s then connAdd addrTgt s :: rest
    else s :: connAddReg a isid addrTgt rest

/-- One iteration of the configured-sessions loop of iscsid_add:
create-or-find the session for this isid slot, then create-or-find the
connection to the target address on it.  A create failure returns false
and, when the session was created before the connection failed, leaves
that session in the registry (the source does not roll back). -/
def slotStep (env : AddEnv) (a : AddArgs) (isid : Nat) (reg : Registry) :
    Bool × Registry :=
  match reg.find? (sessKeyMatch a isid) with
  | some s =>
    if a.addrTgt ∈ s.sess_conns then (true, reg)
    else if env.connCreateOk a isid then
      (true, connAddReg a isid a.addrTgt reg)
    else (false, reg)
  | none =>
    if env.sessCreateOk a isid then
      if env.connCreateOk a isid then
        (true, reg ++ [connAdd a.addrTgt (newSess a isid)])
      else (false, reg ++ [newSess a isid])
    else (false, reg)

/-- The isid-slot loop of iscsid_add: process the slots in order, abort
on the first failure keeping the registry as it stands. -/
def addSlots (env : AddEnv) (a : AddArgs) : List Nat → Registry →
    Bool × Registry
  | [], reg => (true, reg)
  | isid :: rest, reg =>
    let step := slotStep env a isid reg
    if step.1 then addSlots env a rest step.2 else (false, step.2)

/-- iscsid_add: look up the configured session count, then run the slot
loop for slots 0 .. count-1 under the registry write lock. -/
def iscsid_add (env : AddEnv) (a : AddArgs) (reg : Registry) :
    Bool × Registry :=
  addSlots env a (List.range (lookupCount env a.targetName)) reg

/-- Fold a sequence of iscsid_add calls over the registry, keeping only
the resulting state. -/
def applyAdds (env : AddEnv) : Registry → List AddArgs → Registry
  | reg, [] => reg
  | reg, a :: rest => applyAdds env (iscsid_add env a reg).2 rest

/-- Remove duplicates from a list keeping the first occurrence of each
element, so that a fold over the result performs each distinct argument
tuple once, in first-arrival order. -/
def dedupFirst : List AddArgs → List AddArgs
  | [] => []
  | a :: rest => a :: dedupFirst (rest.filter (fun b => b != a))
termination_by l => l.length
decreasing_by
  have := List.length_filter_le (fun b => b != a) rest
  simp only [List.length_cons]
  omega

/-- The create-or-find contract of the spec: no actual creation fails. -/
def AllOk (env : AddEnv) : Prop :=
  ∀ a isid, env.sessCreateOk a isid = true ∧ env.connCreateOk a isid = true

/-- One isid slot of an argument tuple is realized in the registry: a
session with the slot key exists and owns a connection to the target
address. -/
def SlotDone (a : AddArgs) (isid : Nat) (reg : Registry) : Prop :=
  ∃ s ∈ reg, sessKeyMatch a isid s = true ∧ a.addrTgt ∈ s.sess_conns

/-- Every configured slot of the argument tuple is realized. -/
def ArgsDone (env : AddEnv) (a : AddArgs) (reg : Registry) : Prop :=
  ∀ isid < lookupCount env a.targetName, SlotDone a isid reg

/-! ## Discovery events, enable, disable, init, poke -/

/-- One observable action of the coordination layer: a discovery START
or END sysevent for a method, an iscsid_del reconcile call, or an
iscsi_thread_stop call. -/
inductive DiscAction
  | evStart (m : Nat)
  | evEnd (m : Nat)
  | delCall (m : Nat)
  | stopCall (m : Nat)
deriving DecidableEq

/-- Oracle environment for iscsid_disable_discovery: the result of the
iscsid_del reconcile per method, the result of iscsi_thread_stop per
method, and whether the method's worker thread exists (thr_id non NULL;
when it does not, the source hits ASSERT(B_FALSE) and falls through). -/
structure DisableEnv where
  delOk : Nat → Bool
  stopOk : Nat → Bool
  thrExists : Nat → Bool

/-- The per-method loop of iscsid_disable_discovery over the thread
table, translated branch for branch: for each enabled bit emit START,
call iscsid_del; on del success stop the thread, breaking out (after
emitting END) only when the stop fails; on del failure emit END and
continue with the next table entry carrying result false. -/
def disableLoop (env : DisableEnv) (idm : Nat) : List Nat → Bool →
    List DiscAction → Bool × List DiscAction
  | [], rval, tr => (rval, tr)
  | m :: rest, rval, tr =>
    if idm &&& m ≠ 0 then
      let tr1 := tr ++ [DiscAction.evStart m, DiscAction.delCall m]
      if env.delOk m then
        if env.thrExists m then
          if env.stopOk m then
            disableLoop env idm rest true
              (tr1 ++ [DiscAction.stopCall m, DiscAction.evEnd m])
          else
            (false, tr1 ++ [DiscAction.stopCall m, DiscAction.evEnd m])
        else
          disableLoop env idm rest true (tr1 ++ [DiscAction.evEnd m])
      else
        disableLoop env idm rest false (tr1 ++ [DiscAction.evEnd m])
    else
      disableLoop env idm rest rval tr

/-- iscsid_disable_discovery: returns the overall result and the trace
of events and collaborator calls. -/
def iscsid_disable_discovery (env : DisableEnv) (idm : Nat) :
    Bool × List DiscAction :=
  disableLoop env idm iscsid_thr_methods true []

/-- Prefix of a list up to and including the first element satisfying
the predicate (the whole list when none does). -/
def takeThrough (p : Nat → Bool) : List Nat → List Nat
  | [] => []
  | a :: rest => if p a then [a] else a :: takeThrough p rest

/-- A method entry on which the disable loop breaks out early: the
reconcile delete succeeded, the worker thread exists, and stopping it
failed. -/
def disableBreaks (env : DisableEnv) (m : Nat) : Bool :=
  env.delOk m && env.thrExists m && !env.stopOk m

/-- The trace block one processed method contributes: START, the
reconcile-delete call, then (on del success with existing thread) the
stop call, and in every case the END event. -/
def disableBlock (env : DisableEnv) (m : Nat) : List DiscAction :=
  DiscAction.evStart m :: DiscAction.delCall m ::
    (if env.delOk m then
      (if env.thrExists m then
        [DiscAction.stopCall m, DiscAction.evEnd m]
      else [DiscAction.evEnd m])
    else [DiscAction.evEnd m])

/-- The enabled table entries the disable loop actually processes: the
enabled methods in table order, cut after the first entry that breaks. -/
def disableProcessed (env : DisableEnv) (idm : Nat) : List Nat :=
  takeThrough (disableBreaks env)
    (iscsid_thr_methods.filter (fun m => idm &&& m != 0))

/-- The overall result of the disable loop over its processed entries:
a breaking entry yields false; every other processed entry overwrites
the running result with its own delete result; with nothing processed
the incoming result stands. -/
def disableSpecRval (env : DisableEnv) : List Nat → Bool → Bool
  | [], rval => rval
  | m :: rest, _ =>
    if disableBreaks env m then false
    else disableSpecRval env rest (env.delOk m)

/-- Concrete environment refuting claim C1: every worker stops fine but
the reconcile delete of the Static method fails. -/
def c1Env : DisableEnv :=
  { delOk := fun m => m != methodStatic
    stopOk := fun _ => true
    thrExists := fun _ => true }

/-- Oracle environment for iscsid_enable_discovery and iscsid_init. -/
structure InitEnv where
  persistentInitOk : Bool
  initConfigOk : Bool
  initTargetsOk : Bool
  dm : Nat
  startOk : Nat → Bool
  delOk : Nat → Bool
  stopOk : Nat → Bool
  thrExists : Nat → Bool

/-- The DisableEnv entailed by an InitEnv. -/
def denv (env : InitEnv) : DisableEnv :=
  { delOk := env.delOk, stopOk := env.stopOk, thrExists := env.thrExists }

/-- The per-method loop of iscsid_enable_discovery: start the worker of
every enabled bit, breaking with false at the first start failure; a
missing thread hits ASSERT(B_FALSE) and continues. -/
def enableLoop (env : InitEnv) (idm : Nat) : List Nat → Bool
  | [] => true
  | m :: rest =>
    if idm &&& m ≠ 0 then
      if env.thrExists m then
        if env.startOk m then enableLoop env idm rest else false
      else enableLoop env idm rest
    else enableLoop env idm rest

/-- iscsid_enable_discovery (the poke flag only sends wakeups, which are
not observable here). -/
def iscsid_enable_discovery (env : InitEnv) (idm : Nat)
    (_poke : Bool) : Bool :=
  enableLoop env idm iscsid_thr_methods

/-- The synthetic START plus END pairs emitted from the for_failure
table, in its fixed order Static, SLP, iSNS, SendTargets. -/
def failureEvents : List DiscAction :=
  [DiscAction.evStart methodStatic, DiscAction.evEnd methodStatic,
   DiscAction.evStart methodSLP, DiscAction.evEnd methodSLP,
   DiscAction.evStart methodISNS, DiscAction.evEnd methodISNS,
   DiscAction.evStart methodSendTargets,
   DiscAction.evEnd methodSendTargets]

/-- The body of iscsid_init before its failure handling: persistent_init,
then init_config, then init_targets; on success enable the stored method
set and disable its complement (the loops test single method bits, so
complementing the low four bits agrees with the C bitwise not). -/
def iscsidInitStep (env : InitEnv) : Bool × List DiscAction :=
  if env.persistentInitOk && env.initConfigOk && env.initTargetsOk then
    if iscsid_enable_discovery env env.dm false then
      iscsid_disable_discovery (denv env) (15 ^^^ env.dm)
    else (false, [])
  else (false, [])

/-- iscsid_init proper: run the step above, then append the for_failure
event pairs exactly when the accumulated result is false. -/
def iscsid_init (env : InitEnv) (_restart : Bool) :
    Bool × List DiscAction :=
  if (iscsidInitStep env).1 then iscsidInitStep env
  else (false, (iscsidInitStep env).2 ++ failureEvents)

/-- The hba_discovery_events bitmap update of iscsi_discovery_event: the
switch ors the method's own bit into the bitmap exactly on that
method's END event, and touches nothing on START or on an unknown
method. -/
def discovery_event_bitmap (m : Nat) (start : Bool) (ev : Nat) : Nat :=
  if m = methodStatic then (if start then ev else ev ||| methodStatic)
  else if m = methodSendTargets then
    (if start then ev else ev ||| methodSendTargets)
  else if m = methodSLP then (if start then ev else ev ||| methodSLP)
  else if m = methodISNS then (if start then ev else ev ||| methodISNS)
  else ev

/-- Oracle environment for iscsid_poke_discovery: the stored enabled
method set and thread existence. -/
structure PokeEnv where
  dm : Nat
  thrExists : Nat → Bool

/-- The kick phase of iscsid_poke_discovery over the thread table: wake
the matching enabled workers (no immediate bitmap change); for every
other table entry emit synthetic START plus END, accumulating their
bitmap effect. -/
def pokeKickEvents (env : PokeEnv) (method : Nat) : List Nat → Nat → Nat
  | [], ev => ev
  | m :: rest, ev =>
    if method = methodUnknown ∨ method = m then
      if (env.dm &&& m != 0) && env.thrExists m then
        pokeKickEvents env method rest ev
      else
        pokeKickEvents env method rest
          (discovery_event_bitmap m false (discovery_event_bitmap m true ev))
    else
      pokeKickEvents env method rest
        (discovery_event_bitmap m false (discovery_event_bitmap m true ev))

/-- The barrier loop of iscsid_poke_discovery: between one-second
sleeps the workers apply batches of discovery events to the bitmap; the
loop exits exactly when the bitmap equals the full four-method mask,
and is still blocked (none) when the supplied batches run out first. -/
def pokeWait : Nat → List (List (Nat × Bool)) → Option Nat
  | ev, [] => if ev = allDiscoveryMethods then some ev else none
  | ev, b :: rest =>
    if ev = allDiscoveryMethods then some ev
    else
      pokeWait (b.foldl (fun e a => discovery_event_bitmap a.1 a.2 e) ev)
        rest

/-- The discovery bitmap state of the HBA at the end of poke. -/
structure HbaDiscState where
  hba_discovery_events : Nat
  hba_discovery_in_progress : Bool
deriving DecidableEq

/-- iscsid_poke_discovery: reset the bitmap and raise in_progress, run
the kick phase, then spin until the bitmap is full, finally lowering
in_progress; none models a call still blocked in the barrier. -/
def iscsid_poke_discovery (env : PokeEnv) (method : Nat)
    (batches : List (List (Nat × Bool))) : Option HbaDiscState :=
  let ev1 := pokeKickEvents env method iscsid_thr_methods 0
  match pokeWait ev1 batches with
  | some ev => some ⟨ev, false⟩
  | none => none

/-! ## iscsid_do_sendtgts -/

/-- An IP endpoint as carried by entry_t and iscsi_sendtgts_entry_t:
family selector, address payload and port. -/
structure StEntryAddr where
  isV6 : Bool
  addrBits : Nat
  port : Nat
deriving DecidableEq

/-- iscsid_addr_to_sockaddr: normalize an entry address to a sockaddr. -/
def iscsid_addr_to_sockaddr (a : StEntryAddr) : SockAddr :=
  if a.isV6 then SockAddr.v6 a.addrBits a.port
  else SockAddr.v4 a.addrBits a.port

/-- One target descriptor returned by the SendTargets ioctl. -/
structure SendTgtsEntry where
  addr : StEntryAddr
  name : String
  tpgt : Int
deriving DecidableEq

/-- Oracle environment for iscsid_do_sendtgts: whether the HBA soft
state lookup succeeds, and the SendTargets ioctl as a map from the
offered buffer capacity in_cnt to the full list of targets found (so
out_cnt is the length of the answer; none models a failing return
code). -/
structure SendTgtsEnv where
  softStateOk : Bool
  ioctl : Nat → Option (List SendTgtsEntry)

/-- The iscsid_add argument tuple built for one discovered target. -/
def mkSendTgtsAdd (discAddr : StEntryAddr) (e : SendTgtsEntry) :
    AddArgs :=
  { method := methodSendTargets
    addrDsc := iscsid_addr_to_sockaddr discAddr
    targetName := e.name
    tpgt := e.tpgt
    addrTgt := iscsid_addr_to_sockaddr e.addr }

/-- The retried SendTargets attempt (retry already consumed): an
overflow now abandons the discovery address with no adds. -/
def sendtgtsNoRetry (env : SendTgtsEnv) (discAddr : StEntryAddr)
    (inCnt : Nat) (calls : List Nat) : List Nat × List AddArgs :=
  if env.softStateOk then
    match env.ioctl inCnt with
    | none => (calls ++ [inCnt], [])
    | some tgts =>
      if inCnt < tgts.length then (calls ++ [inCnt], [])
      else (calls ++ [inCnt], tgts.map (mkSendTgtsAdd discAddr))
  else (calls, [])

/-- iscsid_do_sendtgts: offer a buffer of 10 descriptors; on overflow
reallocate once to the reported count and retry; otherwise call
iscsid_add once per returned descriptor.  Returns the in_cnt of every
ioctl call made and the list of iscsid_add calls issued. -/
def iscsid_do_sendtgts (env : SendTgtsEnv) (discAddr : StEntryAddr) :
    List Nat × List AddArgs :=
  if env.softStateOk then
    match env.ioctl 10 with
    | none => ([10], [])
    | some tgts =>
      if 10 < tgts.length then
        sendtgtsNoRetry env discAddr tgts.length [10]
      else ([10], tgts.map (mkSendTgtsAdd discAddr))
  else ([], [])

/-! ## isns_scn_callback -/

/-- The scn_type values dispatched by the callback switch. -/
inductive ScnType
  | objAdded
  | objRemoved
  | objUpdated
  | other (code : Nat)
deriving DecidableEq

/-- The heap-allocated callback argument. -/
structure ScnArg where
  scn_type : ScnType
  source_key_attr : String
deriving DecidableEq

/-- One portal group entry of an iSNS query answer. -/
structure IsnsPg where
  pg_iscsi_name : String
  pg_tag : Int
  serverAddr : StEntryAddr
  pgAddr : StEntryAddr
deriving DecidableEq

/-- Oracle environment for isns_scn_callback: the HBA soft state lookup
and the one-node iSNS query (none models a failed query or a NULL
portal group list). -/
structure ScnEnv where
  softStateOk : Bool
  queryOneNode : String → Option (List IsnsPg)

/-- An observable action of the SCN callback. -/
inductive ScnAction
  | queryNode (key : String)
  | addCall (a : AddArgs)
  | loginCall (name : String)
  | delCall (name : String)
deriving DecidableEq

/-- The iscsid_add argument tuple built for one portal group. -/
def mkIsnsAdd (pg : IsnsPg) : AddArgs :=
  { method := methodISNS
    addrDsc := iscsid_addr_to_sockaddr pg.serverAddr
    targetName := pg.pg_iscsi_name
    tpgt := pg.pg_tag
    addrTgt := iscsid_addr_to_sockaddr pg.pgAddr }

/-- isns_scn_callback, translated exit path for exit path.  The second
component counts the kmem_free calls applied to the callback argument
before returning: the NULL-argument return frees nothing, the failed
soft state lookup returns early without reaching the free at the end of
the function, and every branch of the switch falls through to that one
free. -/
def isns_scn_callback (env : ScnEnv) (arg : Option ScnArg) :
    List ScnAction × Nat :=
  match arg with
  | none => ([], 0)
  | some a =>
    if env.softStateOk then
      match a.scn_type with
      | ScnType.objAdded =>
        let actions :=
          match env.queryOneNode a.source_key_attr with
          | none => [ScnAction.queryNode a.source_key_attr]
          | some pgs =>
            ScnAction.queryNode a.source_key_attr ::
              (pgs.flatMap (fun pg =>
                [ScnAction.addCall (mkIsnsAdd pg),
                 ScnAction.loginCall pg.pg_iscsi_name]))
        (actions, 1)
      | ScnType.objRemoved => ([ScnAction.delCall a.source_key_attr], 1)
      | ScnType.objUpdated => ([], 1)
      | ScnType.other _ => ([], 1)
    else ([], 0)

/-! ## iscsid_copyto_param_set -/

/-- Modelled from the spec: the numeric login-parameter ids of
iscsi_if.h (absent from src/), in the order of the spec's parameter
table, followed by the three recognized but unsettable ids. -/
def pDataSequenceInOrder : Nat := 0

/-- IMMEDIATE_DATA parameter id. -/
def pImmediateData : Nat := 1

/-- INITIAL_R2T parameter id. -/
def pInitialR2T : Nat := 2

/-- DATA_PDU_IN_ORDER parameter id. -/
def pDataPduInOrder : Nat := 3

/-- HEADER_DIGEST parameter id. -/
def pHeaderDigest : Nat := 4

/-- DATA_DIGEST parameter id. -/
def pDataDigest : Nat := 5

/-- DEFAULT_TIME_2_RETAIN parameter id. -/
def pDefaultTime2Retain : Nat := 6

/-- DEFAULT_TIME_2_WAIT parameter id. -/
def pDefaultTime2Wait : Nat := 7

/-- MAX_RECV_DATA_SEGMENT_LENGTH parameter id. -/
def pMaxRecvDataSegmentLength : Nat := 8

/-- FIRST_BURST_LENGTH parameter id. -/
def pFirstBurstLength : Nat := 9

/-- MAX_BURST_LENGTH parameter id. -/
def pMaxBurstLength : Nat := 10

/-- MAX_CONNECTIONS parameter id (recognized, unsettable). -/
def pMaxConnections : Nat := 11

/-- OUTSTANDING_R2T parameter id (recognized, unsettable). -/
def pOutstandingR2T : Nat := 12

/-- ERROR_RECOVERY_LEVEL parameter id (recognized, unsettable). -/
def pErrorRecoveryLevel : Nat := 13

/-- ISCSI_NUM_LOGIN_PARAM: the parameter-count bound. -/
def numLoginParam : Nat := 14

/-- The iscsi_login_params_t record fields read by the parameter copy. -/
structure LoginParams where
  immediate_data : Bool
  initial_r2t : Bool
  data_pdu_in_order : Bool
  data_sequence_in_order : Bool
  header_digest : Nat
  data_digest : Nat
  default_time_to_retain : Nat
  default_time_to_wait : Nat
  max_recv_data_seg_len : Nat
  first_burst_length : Nat
  max_burst_length : Nat
  max_connections : Nat
  max_outstanding_r2t : Nat
  error_recovery_level : Nat
deriving DecidableEq

/-- The s_value union of iscsi_param_set_t. -/
inductive ParamValue
  | vbool (b : Bool)
  | vinteger (n : Nat)
  | vuntouched
deriving DecidableEq

/-- The output record of the parameter copy. -/
structure ParamSet where
  s_param : Nat
  s_value : ParamValue
deriving DecidableEq

/-- iscsid_copyto_param_set, translated case for case: reject ids at or
beyond the parameter-count bound, copy the mapped field for the eleven
settable ids, fall through to EINVAL for the three unsettable ids and
anything else, and echo the param id into s_param exactly on success. -/
def iscsid_copyto_param_set (param_id : Nat) (params : LoginParams)
    (ipsp : ParamSet) : Nat × ParamSet :=
  if param_id ≥ numLoginParam then (EINVAL, ipsp)
  else
    let step : Nat × ParamSet :=
      if param_id = pDataSequenceInOrder then
        (0, { ipsp with s_value := ParamValue.vbool params.data_pdu_in_order })
      else if param_id = pImmediateData then
        (0, { ipsp with s_value := ParamValue.vbool params.immediate_data })
      else if param_id = pInitialR2T then
        (0, { ipsp with s_value := ParamValue.vbool params.initial_r2t })
      else if param_id = pDataPduInOrder then
        (0, { ipsp with s_value := ParamValue.vbool params.data_pdu_in_order })
      else if param_id = pHeaderDigest then
        (0, { ipsp with s_value := ParamValue.vinteger params.header_digest })
      else if param_id = pDataDigest then
        (0, { ipsp with s_value := ParamValue.vinteger params.data_digest })
      else if param_id = pDefaultTime2Retain then
        (0, { ipsp with
          s_value := ParamValue.vinteger params.default_time_to_retain })
      else if param_id = pDefaultTime2Wait then
        (0, { ipsp with
          s_value := ParamValue.vinteger params.default_time_to_wait })
      else if param_id = pMaxRecvDataSegmentLength then
        (0, { ipsp with
          s_value := ParamValue.vinteger params.max_recv_data_seg_len })
      else if param_id = pFirstBurstLength then
        (0, { ipsp with
          s_value := ParamValue.vinteger params.first_burst_length })
      else if param_id = pMaxBurstLength then
        (0, { ipsp with
          s_value := ParamValue.vinteger params.max_burst_length })
      else (EINVAL, ipsp)
    if step.1 = 0 then (0, { step.2 with s_param := param_id })
    else step

/-- The eleven settable parameter ids of the spec's parameter table. -/
def settableParamIds : List Nat :=
  [pDataSequenceInOrder, pImmediateData, pInitialR2T, pDataPduInOrder,
   pHeaderDigest, pDataDigest, pDefaultTime2Retain, pDefaultTime2Wait,
   pMaxRecvDataSegmentLength, pFirstBurstLength, pMaxBurstLength]

/-- Concrete environments and inputs used by witness instantiations. -/
def scnEnvBad : ScnEnv :=
  { softStateOk := false, queryOneNode := fun _ => none }

/-- A concrete callback argument. -/
def scnArgRemoved : ScnArg :=
  { scn_type := ScnType.objRemoved, source_key_attr := "TY" }

/-- Seventeen identical target descriptors, the overflow scenario of the
spec. -/
def seventeenTargets : List SendTgtsEntry :=
  List.replicate 17
    { addr := { isV6 := false, addrBits := 167772161, port := 3260 }
      name := "TX", tpgt := 1 }

/-- SendTargets oracle answering seventeen targets at every capacity. -/
def sendTgtsEnvOverflow : SendTgtsEnv :=
  { softStateOk := true
    ioctl := fun _ => some seventeenTargets }

/-- A concrete discovery address for witnesses. -/
def discAddrW : StEntryAddr := { isV6 := false, addrBits := 1, port := 3260 }

/-- A destroy oracle that always succeeds. -/
def delEnvW : DelEnv := { destroyOk := fun _ => true }

/-- Registry extension: every session of the first registry persists in
the second with the same identity key and at least its connections. -/
def RegExtends (reg reg2 : Registry) : Prop :=
  ∀ s ∈ reg, ∃ s2 ∈ reg2,
    sessKey s2 = sessKey s ∧ s.sess_conns ⊆ s2.sess_conns

/-- A concrete argument tuple for witnesses. -/
def addArgsW : AddArgs :=
  { method := methodStatic, addrDsc := SockAddr.v4 1 3260,
    targetName := "TX", tpgt := 0, addrTgt := SockAddr.v4 1 3260 }

/-- A concrete add environment: three configured sessions for TX, the
session create of isid slot 1 failing. -/
def addEnvW : AddEnv :=
  { hbaName := "iqn.1986-03.com.sun.init"
    configSess := fun n => if n = "TX" then some 3 else none
    sessCreateOk := fun _ j => j != 1
    connCreateOk := fun _ _ => true }

/-- A concrete add environment: three configured sessions for TX, the
connection create of isid slot 1 failing. -/
def addEnvW2 : AddEnv :=
  { hbaName := "iqn.1986-03.com.sun.init"
    configSess := fun n => if n = "TX" then some 3 else none
    sessCreateOk := fun _ _ => true
    connCreateOk := fun _ j => j != 1 }

/-- A concrete add environment in which every create succeeds. -/
def addEnvOk : AddEnv :=
  { hbaName := "iqn.1986-03.com.sun.init"
    configSess := fun n => if n = "TX" then some 3 else none
    sessCreateOk := fun _ _ => true
    connCreateOk := fun _ _ => true }

/-- A one-session registry whose session was discovered by iSNS. -/
def regW : Registry :=
  [{ sess_name := "T1", sess_discovered_by := methodISNS,
     sess_discovered_addr := SockAddr.v4 0 0, sess_tpgt := 0,
     sess_isid := 0, sess_conn_act := none, sess_conns := [] }]

/-- A statically discovered session. -/
def sessW2 : Sess :=
  { sess_name := "T2", sess_discovered_by := methodStatic,
    sess_discovered_addr := SockAddr.v4 2 3260, sess_tpgt := 0,
    sess_isid := 0, sess_conn_act := none, sess_conns := [] }

/-- A two-session registry: one iSNS session and one Static session. -/
def regW2 : Registry := regW ++ [sessW2]

/-- A concrete InitEnv whose persistent_init fails. -/
def initEnvW : InitEnv :=
  { persistentInitOk := false, initConfigOk := true,
    initTargetsOk := true, dm := 0, startOk := fun _ => true,
    delOk := fun _ => true, stopOk := fun _ => true,
    thrExists := fun _ => true }

/-! ## Theorems -/

theorem disableLoop_eq (env : DisableEnv) (idm : Nat) :
    ∀ (l : List Nat) (rval : Bool) (tr : List DiscAction),
      disableLoop env idm l rval tr =
        (disableSpecRval env
          (takeThrough (disableBreaks env)
            (l.filter (fun m => idm &&& m != 0))) rval,
         tr ++ ((takeThrough (disableBreaks env)
            (l.filter (fun m => idm &&& m != 0))).map
              (disableBlock env)).flatten) := by
  intro l
  induction l with
  | nil => intro rval tr; simp [disableLoop, takeThrough, disableSpecRval]
  | cons m rest ih =>
    intro rval tr
    by_cases he : idm &&& m ≠ 0
    · have heb : (idm &&& m != 0) = true := by simpa using he
      by_cases hd : env.delOk m
      · by_cases ht : env.thrExists m
        · by_cases hs : env.stopOk m
          · have hnb : disableBreaks env m = false := by
              simp [disableBreaks, hd, ht, hs]
            simp only [disableLoop, if_pos he, hd, ht, hs, if_true,
              List.filter_cons, heb, ite_true, takeThrough, hnb,
              ite_false, disableSpecRval, List.map_cons, List.flatten,
              disableBlock, ih]
            simp [disableBlock, hd, ht]
          · have hb : disableBreaks env m = true := by
              simp [disableBreaks, hd, ht, hs]
            simp only [disableLoop, if_pos he, hd, ht, hs, if_true,
              if_false, List.filter_cons, heb, ite_true, takeThrough,
              hb, disableSpecRval, List.map_cons]
            simp [disableBlock, hd, ht]
        · have hnb : disableBreaks env m = false := by
            simp [disableBreaks, ht]
          simp only [disableLoop, if_pos he, hd, ht, if_true, if_false,
            List.filter_cons, heb, ite_true, takeThrough, hnb,
            ite_false, disableSpecRval, List.map_cons, ih]
          simp [disableBlock, hd, ht]
      · have hnb : disableBreaks env m = false := by
          simp [disableBreaks, hd]
        simp only [disableLoop, if_pos he, hd, if_false,
          List.filter_cons, heb, ite_true, takeThrough, hnb, ite_false,
          disableSpecRval, List.map_cons, ih]
        simp [disableBlock, hd]
    · have heb : (idm &&& m != 0) = false := by simpa using he
      simp only [disableLoop, if_neg he, List.filter_cons, heb,
        ite_false, ih]
      simp

/-- C1 amended: iscsid_disable_discovery processes the enabled bits in
thread-table order; each processed bit contributes START, the
iscsid_del(NULL, method, NULL) call, then END; when the delete fails
the END event is still emitted and the loop continues with the next
enabled bit (carrying an overall false that a later iteration can
overwrite); the loop aborts early only when a worker stop fails, again
after emitting END. -/
theorem iscsid_disable_discovery_amended (env : DisableEnv) (idm : Nat) :
    iscsid_disable_discovery env idm =
      (disableSpecRval env (disableProcessed env idm) true,
       ((disableProcessed env idm).map (disableBlock env)).flatten) := by
  simpa [iscsid_disable_discovery, disableProcessed] using
    disableLoop_eq env idm iscsid_thr_methods true []

/-- C1 counterexample: with Static and SendTargets enabled and the
reconcile delete of Static failing, the loop still processes the
SendTargets bit (its START, delete call, stop call and END all appear
after Static's END), contradicting the claim that the loop aborts after
a failed reconcile delete.  The overall result is even true because the
later iteration overwrote it. -/
theorem iscsid_disable_discovery_c1_counterexample :
    c1Env.delOk methodStatic = false ∧
    iscsid_disable_discovery c1Env (methodStatic ||| methodSendTargets) =
      (true,
       [DiscAction.evStart methodStatic, DiscAction.delCall methodStatic,
        DiscAction.evEnd methodStatic,
        DiscAction.evStart methodSendTargets,
        DiscAction.delCall methodSendTargets,
        DiscAction.stopCall methodSendTargets,
        DiscAction.evEnd methodSendTargets]) := by
  exact ⟨rfl, rfl⟩

/-- C6: whenever any of persistent_init, init_config, init_targets, the
enable of the stored methods or the disable of their complement fails,
iscsid_init emits a START event immediately followed by an END event
for every method in the fixed for_failure order Static, SLP, iSNS,
SendTargets, and returns false. -/
theorem iscsid_init_failure_events (env : InitEnv) (restart : Bool)
    (h : env.persistentInitOk = false ∨ env.initConfigOk = false ∨
      env.initTargetsOk = false ∨
      iscsid_enable_discovery env env.dm false = false ∨
      (iscsid_disable_discovery (denv env) (15 ^^^ env.dm)).1 = false) :
    (iscsid_init env restart).1 = false ∧
    ∃ tr, (iscsid_init env restart).2 = tr ++ failureEvents := by
  have hstep : (iscsidInitStep env).1 = false := by
    unfold iscsidInitStep
    rcases h with h | h | h | h | h
    · simp [h]
    · simp [h]
    · simp [h]
    · split_ifs with h1 h2 <;> simp_all
    · split_ifs with h1 h2 <;> simp_all
  refine ⟨?_, ⟨(iscsidInitStep env).2, ?_⟩⟩ <;>
    simp [iscsid_init, hstep]

/-- Witness for the init failure theorem: a failing persistent_init
makes init return false with exactly the failure event sequence. -/
theorem iscsid_init_failure_events_witness :
    (iscsid_init initEnvW false).1 = false ∧
    ∃ tr, (iscsid_init initEnvW false).2 = tr ++ failureEvents :=
  iscsid_init_failure_events initEnvW false (Or.inl rfl)

theorem tryDestroyAddr_none (method : Nat) (isp : Sess) :
    tryDestroyAddr method none isp = true := by
  unfold tryDestroyAddr
  split_ifs <;> rfl

theorem delLoop_result_false (env : DelEnv) (tn : Option String)
    (method : Nat) (ad : Option SockAddr) (reg : Registry) (pos : Nat) :
    (delLoop env tn method ad reg pos false).1 = false := by
  rw [delLoop]
  split
  · rename_i h
    dsimp only
    split
    · split
      · split
        · exact delLoop_result_false env tn method ad (reg.eraseIdx pos) 0
        · exact delLoop_result_false env tn method ad reg (pos + 1)
      · exact delLoop_result_false env tn method ad reg (pos + 1)
    · exact delLoop_result_false env tn method ad reg (pos + 1)
  · rfl
termination_by (reg.length, reg.length - pos)
decreasing_by
  all_goals first
  | (apply Prod.Lex.left
     have := reg.length_eraseIdx_of_lt (by assumption)
     omega)
  | (apply Prod.Lex.right
     rename_i h _ _
     omega)

theorem delLoop_complete (env : DelEnv) (tn : Option String)
    (method : Nat) (ad : Option SockAddr) (reg : Registry) (pos : Nat)
    (rtn : Bool) (r' : Registry)
    (hpre : ∀ i (hi : i < reg.length), i < pos →
      (nameMethodMatch tn method (reg.get ⟨i, hi⟩) &&
        tryDestroyAddr method ad (reg.get ⟨i, hi⟩)) = false)
    (h : delLoop env tn method ad reg pos rtn = (true, r')) :
    ∀ s ∈ r', (nameMethodMatch tn method s &&
      tryDestroyAddr method ad s) = false := by
  rw [delLoop] at h
  split at h
  · rename_i hlt
    dsimp only at h
    split at h
    · rename_i hnm
      split at h
      · rename_i htd
        split at h
        · exact delLoop_complete env tn method ad (reg.eraseIdx pos) 0
            rtn r' (by omega) h
        · exfalso
          have hf := delLoop_result_false env tn method ad reg (pos + 1)
          rw [h] at hf
          simp at hf
      · rename_i htd
        refine delLoop_complete env tn method ad reg (pos + 1) rtn r'
          ?_ h
        intro i hi hip
        rcases Nat.lt_or_ge i pos with hc | hc
        · exact hpre i hi hc
        · have hieq : i = pos := by omega
          subst hieq
          have hfd : tryDestroyAddr method ad reg[i] = false := by
            simpa using htd
          simp [hfd]
    · rename_i hnm
      refine delLoop_complete env tn method ad reg (pos + 1) rtn r'
        ?_ h
      intro i hi hip
      rcases Nat.lt_or_ge i pos with hc | hc
      · exact hpre i hi hc
      · have hieq : i = pos := by omega
        subst hieq
        have hfn : nameMethodMatch tn method reg[i] = false := by
          simpa using hnm
        simp [hfn]
  · rename_i hge
    have hr : r' = reg := by
      have := congrArg Prod.snd h
      simpa using this.symm
    subst hr
    intro s hs
    rcases List.mem_iff_get.mp hs with ⟨⟨i, hi⟩, hg⟩
    have := hpre i hi (by omega)
    rwa [hg] at this
termination_by (reg.length, reg.length - pos)
decreasing_by
  all_goals first
  | (apply Prod.Lex.left
     have := reg.length_eraseIdx_of_lt (by assumption)
     omega)
  | (apply Prod.Lex.right
     omega)

/-- C7: if iscsid_del with NULL target name and NULL discovery address
returns true for a method, no session discovered by that method remains
in the registry. -/
theorem iscsid_del_removes_method (env : DelEnv) (m : Nat)
    (reg r' : Registry)
    (h : iscsid_del env none m none reg = (true, r')) :
    ∀ s ∈ r', s.sess_discovered_by ≠ m := by
  intro s hs
  have hall := delLoop_complete env none m none reg 0 true r'
    (by omega) h s hs
  rw [tryDestroyAddr_none, Bool.and_true] at hall
  simp only [nameMethodMatch, Bool.true_and] at hall
  simpa using hall

/-- Witness for the del completeness theorem: deleting all iSNS
sessions from a registry holding one iSNS and one Static session leaves
exactly the Static session, whose method indeed differs from iSNS. -/
theorem iscsid_del_removes_method_witness :
    sessW2.sess_discovered_by ≠ methodISNS :=
  iscsid_del_removes_method delEnvW methodISNS regW2 [sessW2]
    (by simp [iscsid_del, delLoop, regW, regW2, sessW2, delEnvW,
      nameMethodMatch, tryDestroyAddr, methodISNS, methodSendTargets,
      methodStatic])
    sessW2 (by simp)

theorem sessKeyMatch_connAdd (a : AddArgs) (isid : Nat) (t : SockAddr)
    (s : Sess) :
    sessKeyMatch a isid (connAdd t s) = sessKeyMatch a isid s := by
  unfold connAdd
  split <;> rfl

theorem sessKeyMatch_newSess (a : AddArgs) (isid j : Nat) :
    sessKeyMatch a j (newSess a isid) = (isid == j) := by
  simp [sessKeyMatch, newSess]

theorem addSlots_append (env : AddEnv) (a : AddArgs) (l1 l2 : List Nat) :
    ∀ reg, addSlots env a (l1 ++ l2) reg =
      (if (addSlots env a l1 reg).1 then
        addSlots env a l2 (addSlots env a l1 reg).2
      else addSlots env a l1 reg) := by
  induction l1 with
  | nil => intro reg; simp [addSlots]
  | cons isid rest ih =>
    intro reg
    simp only [List.cons_append, addSlots]
    by_cases hstep : (slotStep env a isid reg).1
    · simp [hstep, ih]
    · simp [hstep]

theorem addSlots_fresh (env : AddEnv) (a : AddArgs) :
    ∀ (l : List Nat) (reg : Registry),
      (∀ j ∈ l, env.sessCreateOk a j = true ∧
        env.connCreateOk a j = true) →
      (∀ j ∈ l, ∀ s ∈ reg, sessKeyMatch a j s = false) →
      l.Nodup →
      addSlots env a l reg =
        (true, reg ++ l.map (fun j => connAdd a.addrTgt (newSess a j))) := by
  intro l
  induction l with
  | nil => intro reg _ _ _; simp [addSlots]
  | cons isid rest ih =>
    intro reg hok hfresh hnd
    have hfind : reg.find? (sessKeyMatch a isid) = none := by
      rw [List.find?_eq_none]
      intro s hs
      simp [hfresh isid (by simp) s hs]
    have hso : env.sessCreateOk a isid = true := (hok isid (by simp)).1
    have hco : env.connCreateOk a isid = true := (hok isid (by simp)).2
    have hnotin : isid ∉ rest := (List.nodup_cons.mp hnd).1
    simp only [addSlots, slotStep, hfind, hso, hco, if_true]
    rw [ih (reg ++ [connAdd a.addrTgt (newSess a isid)])
      (fun j hj => hok j (by simp [hj]))
      ?_ (List.nodup_cons.mp hnd).2]
    · simp
    · intro j hj s hs
      rcases List.mem_append.mp hs with hs | hs
      · exact hfresh j (by simp [hj]) s hs
      · have hseq : s = connAdd a.addrTgt (newSess a isid) := by
          simpa using hs
        subst hseq
        rw [sessKeyMatch_connAdd, sessKeyMatch_newSess]
        have : isid ≠ j := fun he => hnotin (he ▸ hj)
        simpa using this

/-- C10: iscsid_add is not atomic on failure: with slots before i
succeeding and either iscsi_sess_create or iscsi_conn_create failing at
slot i, the call returns false yet the sessions and connections created
for slots 0 .. i-1 stay in the registry (a conn-create failure even
leaves the freshly created slot-i session behind); nothing is rolled
back. -/
theorem iscsid_add_not_atomic (env : AddEnv) (a : AddArgs)
    (reg : Registry) (i : Nat)
    (_hpos : 0 < i)
    (hcount : i < lookupCount env a.targetName)
    (hpre : ∀ j < i, env.sessCreateOk a j = true ∧
      env.connCreateOk a j = true)
    (hfail : env.sessCreateOk a i = false ∨
      env.connCreateOk a i = false)
    (hfresh : ∀ (j : Nat) (s : Sess), s ∈ reg →
      sessKeyMatch a j s = false) :
    iscsid_add env a reg =
      (false, reg ++ (List.range i).map
        (fun j => connAdd a.addrTgt (newSess a j)) ++
        (if env.sessCreateOk a i then [newSess a i] else [])) := by
  unfold iscsid_add
  obtain ⟨k, hk⟩ : ∃ k, lookupCount env a.targetName = (i + 1) + k :=
    ⟨lookupCount env a.targetName - (i + 1), by omega⟩
  rw [hk, List.range_add, addSlots_append]
  have h1 : addSlots env a (List.range (i + 1)) reg =
      (false, reg ++ (List.range i).map
        (fun j => connAdd a.addrTgt (newSess a j)) ++
        (if env.sessCreateOk a i then [newSess a i] else [])) := by
    rw [List.range_succ, addSlots_append]
    rw [addSlots_fresh env a (List.range i) reg
      (fun j hj => hpre j (List.mem_range.mp hj))
      (fun j _ s hs => hfresh j s hs) (List.nodup_range i)]
    have hfind : (reg ++ (List.range i).map
        (fun j => connAdd a.addrTgt (newSess a j))).find?
          (sessKeyMatch a i) = none := by
      rw [List.find?_eq_none]
      intro s hs
      rcases List.mem_append.mp hs with hs | hs
      · simp [hfresh i s hs]
      · rcases List.mem_map.mp hs with ⟨j, hj, rfl⟩
        have hji : j < i := List.mem_range.mp hj
        rw [sessKeyMatch_connAdd, sessKeyMatch_newSess]
        simp
        omega
    rcases Bool.eq_false_or_eq_true (env.sessCreateOk a i) with hso | hso
    · have hco : env.connCreateOk a i = false := by
        rcases hfail with hf | hf
        · rw [hf] at hso; cases hso
        · exact hf
      simp [addSlots, slotStep, hfind, hso, hco]
    · simp [addSlots, slotStep, hfind, hso]
  rw [h1]
  simp

/-- Witness for the non-atomicity theorem, exercising both failure
flavors at slot 1 of three configured sessions: a failing
iscsi_sess_create leaves the slot-0 session with its connection in the
registry, and a failing iscsi_conn_create additionally leaves the bare
slot-1 session, while both calls report false. -/
theorem iscsid_add_not_atomic_witness :
    (iscsid_add addEnvW addArgsW [] =
      (false, [connAdd addArgsW.addrTgt (newSess addArgsW 0)])) ∧
    (iscsid_add addEnvW2 addArgsW [] =
      (false, [connAdd addArgsW.addrTgt (newSess addArgsW 0),
        newSess addArgsW 1])) := by
  constructor
  · have h := iscsid_add_not_atomic addEnvW addArgsW [] 1 (by decide)
      (by simp [lookupCount, addEnvW, addArgsW])
      (by intro j hj; interval_cases j; exact ⟨rfl, rfl⟩)
      (Or.inl rfl)
      (by intro j s hs; cases hs)
    simpa [addEnvW] using h
  · have h := iscsid_add_not_atomic addEnvW2 addArgsW [] 1 (by decide)
      (by simp [lookupCount, addEnvW2, addArgsW])
      (by intro j hj; interval_cases j; exact ⟨rfl, rfl⟩)
      (Or.inr rfl)
      (by intro j s hs; cases hs)
    simpa [addEnvW2] using h

theorem sessKeyMatch_iff_key (a : AddArgs) (isid : Nat) (s : Sess) :
    sessKeyMatch a isid s = true ↔
      sessKey s = (a.targetName, a.method, a.addrDsc, a.tpgt, isid) := by
  simp [sessKeyMatch, sessKey, Prod.ext_iff, and_assoc]

theorem sessKey_connAdd (t : SockAddr) (s : Sess) :
    sessKey (connAdd t s) = sessKey s := by
  unfold connAdd
  split <;> rfl

theorem sessKey_newSess (a : AddArgs) (isid : Nat) :
    sessKey (newSess a isid) =
      (a.targetName, a.method, a.addrDsc, a.tpgt, isid) := rfl

theorem connAdd_subset (t : SockAddr) (s : Sess) :
    s.sess_conns ⊆ (connAdd t s).sess_conns := by
  unfold connAdd
  split
  · exact fun x hx => hx
  · exact fun x hx => List.mem_append.mpr (Or.inl hx)

theorem mem_connAdd (t : SockAddr) (s : Sess) :
    t ∈ (connAdd t s).sess_conns := by
  unfold connAdd
  split
  · assumption
  · simp

theorem connAddReg_map_key (a : AddArgs) (isid : Nat) (t : SockAddr) :
    ∀ reg : Registry,
      (connAddReg a isid t reg).map sessKey = reg.map sessKey := by
  intro reg
  induction reg with
  | nil => rfl
  | cons s rest ih =>
    unfold connAddReg
    split
    · simp [sessKey_connAdd]
    · simp [ih]

theorem RegExtends_refl (reg : Registry) : RegExtends reg reg :=
  fun s hs => ⟨s, hs, rfl, fun _ hx => hx⟩

theorem RegExtends_trans (r1 r2 r3 : Registry)
    (h1 : RegExtends r1 r2) (h2 : RegExtends r2 r3) :
    RegExtends r1 r3 := by
  intro s hs
  rcases h1 s hs with ⟨s2, hs2, hk2, hc2⟩
  rcases h2 s2 hs2 with ⟨s3, hs3, hk3, hc3⟩
  exact ⟨s3, hs3, hk3.trans hk2, fun x hx => hc3 (hc2 hx)⟩

theorem RegExtends_append (reg l : Registry) :
    RegExtends reg (reg ++ l) :=
  fun s hs => ⟨s, List.mem_append.mpr (Or.inl hs), rfl, fun _ hx => hx⟩

theorem RegExtends_connAddReg (a : AddArgs) (isid : Nat) (t : SockAddr) :
    ∀ reg : Registry, RegExtends reg (connAddReg a isid t reg) := by
  intro reg
  induction reg with
  | nil => exact RegExtends_refl []
  | cons s rest ih =>
    unfold connAddReg
    split
    · intro x hx
      rcases List.mem_cons.mp hx with hx | hx
      · subst hx
        exact ⟨connAdd t x, by simp, sessKey_connAdd t x,
          connAdd_subset t x⟩
      · exact ⟨x, by simp [hx], rfl, fun _ h => h⟩
    · intro x hx
      rcases List.mem_cons.mp hx with hx | hx
      · subst hx
        exact ⟨x, by simp, rfl, fun _ h => h⟩
      · rcases ih x hx with ⟨s2, hs2, hk, hc⟩
        exact ⟨s2, by simp [hs2], hk, hc⟩

theorem SlotDone_mono (a : AddArgs) (isid : Nat) (reg reg2 : Registry)
    (h : RegExtends reg reg2) (hd : SlotDone a isid reg) :
    SlotDone a isid reg2 := by
  rcases hd with ⟨s, hs, hm, hc⟩
  rcases h s hs with ⟨s2, hs2, hk, hsub⟩
  refine ⟨s2, hs2, ?_, hsub hc⟩
  rw [sessKeyMatch_iff_key] at hm ⊢
  rw [hk, hm]

theorem connAddReg_done (a : AddArgs) (isid : Nat) (t : SockAddr) :
    ∀ reg : Registry, (∃ s ∈ reg, sessKeyMatch a isid s = true) →
      ∃ s2 ∈ connAddReg a isid t reg,
        sessKeyMatch a isid s2 = true ∧ t ∈ s2.sess_conns := by
  intro reg
  induction reg with
  | nil => rintro ⟨s, hs, _⟩; cases hs
  | cons x rest ih =>
    rintro ⟨s, hs, hm⟩
    by_cases hx : sessKeyMatch a isid x
    · unfold connAddReg
      rw [if_pos hx]
      exact ⟨connAdd t x, by simp,
        by rw [sessKeyMatch_connAdd]; exact hx, mem_connAdd t x⟩
    · unfold connAddReg
      rw [if_neg hx]
      have hsr : s ∈ rest := by
        rcases List.mem_cons.mp hs with hxs | hxs
        · exact absurd (hxs ▸ hm) hx
        · exact hxs
      rcases ih ⟨s, hsr, hm⟩ with ⟨s2, hs2, hm2, hc2⟩
      exact ⟨s2, by simp [hs2], hm2, hc2⟩

theorem keyUnique_iff (reg : Registry) :
    KeyUnique reg ↔
      (reg.map sessKey).Pairwise (fun x y => x ≠ y) := by
  unfold KeyUnique
  rw [List.pairwise_map]

theorem keyUnique_connAddReg (a : AddArgs) (isid : Nat) (t : SockAddr)
    (reg : Registry) (h : KeyUnique reg) :
    KeyUnique (connAddReg a isid t reg) := by
  rw [keyUnique_iff] at h ⊢
  rw [connAddReg_map_key]
  exact h

theorem keyUnique_append_one (reg : Registry) (x : Sess)
    (h2 : ∀ s ∈ reg, sessKey s ≠ sessKey x) (h : KeyUnique reg) :
    KeyUnique (reg ++ [x]) := by
  unfold KeyUnique at h ⊢
  rw [List.pairwise_append]
  refine ⟨h, List.pairwise_singleton _ _, ?_⟩
  intro s hs y hy
  have hyx : y = x := by simpa using hy
  subst hyx
  exact h2 s hs

theorem slotStep_fst (env : AddEnv) (a : AddArgs) (isid : Nat)
    (reg : Registry) (hok : AllOk env) :
    (slotStep env a isid reg).1 = true := by
  unfold slotStep
  cases hf : reg.find? (sessKeyMatch a isid) with
  | some s =>
    by_cases hc : a.addrTgt ∈ s.sess_conns
    · simp [hc]
    · simp [hc, (hok a isid).2]
  | none => simp [(hok a isid).1, (hok a isid).2]

theorem slotStep_extends (env : AddEnv) (a : AddArgs) (isid : Nat)
    (reg : Registry) : RegExtends reg (slotStep env a isid reg).2 := by
  unfold slotStep
  cases hf : reg.find? (sessKeyMatch a isid) with
  | some s =>
    by_cases hc : a.addrTgt ∈ s.sess_conns
    · simpa [hc] using RegExtends_refl reg
    · by_cases hco : env.connCreateOk a isid
      · simpa [hc, hco] using RegExtends_connAddReg a isid a.addrTgt reg
      · simpa [hc, hco] using RegExtends_refl reg
  | none =>
    by_cases hso : env.sessCreateOk a isid
    · by_cases hco : env.connCreateOk a isid
      · simpa [hso, hco] using
          RegExtends_append reg [connAdd a.addrTgt (newSess a isid)]
      · simpa [hso, hco] using RegExtends_append reg [newSess a isid]
    · simpa [hso] using RegExtends_refl reg

theorem find?_none_key (a : AddArgs) (isid : Nat) (reg : Registry)
    (hf : reg.find? (sessKeyMatch a isid) = none) :
    ∀ s ∈ reg, sessKey s ≠
      (a.targetName, a.method, a.addrDsc, a.tpgt, isid) := by
  rw [List.find?_eq_none] at hf
  intro s hs he
  exact hf s hs ((sessKeyMatch_iff_key a isid s).mpr he)

theorem slotStep_keyUnique (env : AddEnv) (a : AddArgs) (isid : Nat)
    (reg : Registry) (h : KeyUnique reg) :
    KeyUnique (slotStep env a isid reg).2 := by
  unfold slotStep
  cases hf : reg.find? (sessKeyMatch a isid) with
  | some s =>
    by_cases hc : a.addrTgt ∈ s.sess_conns
    · simpa [hc] using h
    · by_cases hco : env.connCreateOk a isid
      · simpa [hc, hco] using keyUnique_connAddReg a isid a.addrTgt reg h
      · simpa [hc, hco] using h
  | none =>
    have hkeys := find?_none_key a isid reg hf
    by_cases hso : env.sessCreateOk a isid
    · by_cases hco : env.connCreateOk a isid
      · have := keyUnique_append_one reg
          (connAdd a.addrTgt (newSess a isid))
          (by intro s hs; rw [sessKey_connAdd, sessKey_newSess];
              exact hkeys s hs) h
        simpa [hso, hco] using this
      · have := keyUnique_append_one reg (newSess a isid)
          (by intro s hs; rw [sessKey_newSess]; exact hkeys s hs) h
        simpa [hso, hco] using this
    · simpa [hso] using h

theorem slotStep_makes_done (env : AddEnv) (a : AddArgs) (isid : Nat)
    (reg : Registry) (hok : AllOk env) :
    SlotDone a isid (slotStep env a isid reg).2 := by
  unfold slotStep
  cases hf : reg.find? (sessKeyMatch a isid) with
  | some s =>
    have hm := List.find?_some hf
    have hmem := List.mem_of_find?_eq_some hf
    by_cases hc : a.addrTgt ∈ s.sess_conns
    · simp only [hc, if_true]
      exact ⟨s, hmem, hm, hc⟩
    · simp only [hc, if_false, (hok a isid).2, if_true]
      exact connAddReg_done a isid a.addrTgt reg ⟨s, hmem, hm⟩
  | none =>
    simp only [(hok a isid).1, (hok a isid).2, if_true]
    refine ⟨connAdd a.addrTgt (newSess a isid), by simp, ?_, ?_⟩
    · rw [sessKeyMatch_connAdd, sessKeyMatch_newSess]
      simp
    · exact mem_connAdd _ _

theorem slotStep_done_noop (env : AddEnv) (a : AddArgs) (isid : Nat)
    (reg : Registry) (huniq : KeyUnique reg)
    (hdone : SlotDone a isid reg) :
    slotStep env a isid reg = (true, reg) := by
  rcases hdone with ⟨s, hs, hm, hc⟩
  unfold slotStep
  cases hf : reg.find? (sessKeyMatch a isid) with
  | none =>
    rw [List.find?_eq_none] at hf
    exact absurd hm (by simpa using hf s hs)
  | some s0 =>
    have hm0 := List.find?_some hf
    have hmem0 := List.mem_of_find?_eq_some hf
    have hseq : s0 = s := by
      by_contra hne
      have hkey0 := (sessKeyMatch_iff_key a isid s0).mp hm0
      have hkey := (sessKeyMatch_iff_key a isid s).mp hm
      have hsym : Symmetric (fun u v : Sess => sessKey u ≠ sessKey v) :=
        fun _ _ h he => h he.symm
      exact (List.Pairwise.forall hsym huniq hmem0 hs hne)
        (hkey0.trans hkey.symm)
    subst hseq
    simp [hc]

theorem addSlots_extends (env : AddEnv) (a : AddArgs) :
    ∀ (l : List Nat) (reg : Registry),
      RegExtends reg (addSlots env a l reg).2 := by
  intro l
  induction l with
  | nil => intro reg; exact RegExtends_refl reg
  | cons isid rest ih =>
    intro reg
    simp only [addSlots]
    by_cases hstep : (slotStep env a isid reg).1
    · simp only [hstep, if_true]
      exact RegExtends_trans _ _ _ (slotStep_extends env a isid reg)
        (ih (slotStep env a isid reg).2)
    · simp only [hstep, if_false]
      exact slotStep_extends env a isid reg

theorem addSlots_keyUnique (env : AddEnv) (a : AddArgs) :
    ∀ (l : List Nat) (reg : Registry), KeyUnique reg →
      KeyUnique (addSlots env a l reg).2 := by
  intro l
  induction l with
  | nil => intro reg h; exact h
  | cons isid rest ih =>
    intro reg h
    simp only [addSlots]
    by_cases hstep : (slotStep env a isid reg).1
    · simp only [hstep, if_true]
      exact ih _ (slotStep_keyUnique env a isid reg h)
    · simp only [hstep, if_false]
      exact slotStep_keyUnique env a isid reg h

theorem addSlots_fst (env : AddEnv) (a : AddArgs) (hok : AllOk env) :
    ∀ (l : List Nat) (reg : Registry),
      (addSlots env a l reg).1 = true := by
  intro l
  induction l with
  | nil => intro reg; rfl
  | cons isid rest ih =>
    intro reg
    simp only [addSlots, slotStep_fst env a isid reg hok, if_true]
    exact ih _

theorem addSlots_done (env : AddEnv) (a : AddArgs) (hok : AllOk env) :
    ∀ (l : List Nat) (reg : Registry) (isid : Nat), isid ∈ l →
      SlotDone a isid (addSlots env a l reg).2 := by
  intro l
  induction l with
  | nil => intro reg isid h; cases h
  | cons j rest ih =>
    intro reg isid hmem
    simp only [addSlots, slotStep_fst env a j reg hok, if_true]
    rcases List.mem_cons.mp hmem with hmem | hmem
    · subst hmem
      exact SlotDone_mono a isid _ _
        (addSlots_extends env a rest (slotStep env a isid reg).2)
        (slotStep_makes_done env a isid reg hok)
    · exact ih _ isid hmem

theorem addSlots_noop (env : AddEnv) (a : AddArgs) :
    ∀ (l : List Nat) (reg : Registry), KeyUnique reg →
      (∀ isid ∈ l, SlotDone a isid reg) →
      addSlots env a l reg = (true, reg) := by
  intro l
  induction l with
  | nil => intro reg _ _; rfl
  | cons isid rest ih =>
    intro reg huniq hdone
    simp only [addSlots]
    rw [slotStep_done_noop env a isid reg huniq (hdone isid (by simp))]
    simp only [if_true]
    exact ih reg huniq (fun j hj => hdone j (by simp [hj]))

theorem iscsid_add_extends (env : AddEnv) (a : AddArgs)
    (reg : Registry) : RegExtends reg (iscsid_add env a reg).2 :=
  addSlots_extends env a _ reg

theorem iscsid_add_keyUnique (env : AddEnv) (a : AddArgs)
    (reg : Registry) (h : KeyUnique reg) :
    KeyUnique (iscsid_add env a reg).2 :=
  addSlots_keyUnique env a _ reg h

theorem iscsid_add_fst (env : AddEnv) (a : AddArgs) (reg : Registry)
    (hok : AllOk env) : (iscsid_add env a reg).1 = true :=
  addSlots_fst env a hok _ reg

theorem iscsid_add_done (env : AddEnv) (a : AddArgs) (reg : Registry)
    (hok : AllOk env) : ArgsDone env a (iscsid_add env a reg).2 :=
  fun isid hlt =>
    addSlots_done env a hok _ reg isid (List.mem_range.mpr hlt)

theorem ArgsDone_mono (env : AddEnv) (a : AddArgs) (r r2 : Registry)
    (h : RegExtends r r2) (hd : ArgsDone env a r) :
    ArgsDone env a r2 :=
  fun isid hlt => SlotDone_mono a isid r r2 h (hd isid hlt)

theorem iscsid_add_noop (env : AddEnv) (a : AddArgs) (reg : Registry)
    (huniq : KeyUnique reg) (hdone : ArgsDone env a reg) :
    iscsid_add env a reg = (true, reg) :=
  addSlots_noop env a _ reg huniq
    (fun isid hm => hdone isid (List.mem_range.mp hm))

theorem applyAdds_skip (env : AddEnv) (_hok : AllOk env) (a : AddArgs) :
    ∀ (L : List AddArgs) (reg : Registry), KeyUnique reg →
      ArgsDone env a reg →
      applyAdds env reg (L.filter (fun b => b != a)) =
        applyAdds env reg L := by
  intro L
  induction L with
  | nil => intro reg _ _; rfl
  | cons b rest ih =>
    intro reg huniq hdone
    by_cases hba : b = a
    · subst hba
      rw [List.filter_cons_of_neg (by simp)]
      have hnoop := iscsid_add_noop env b reg huniq hdone
      calc applyAdds env reg (rest.filter (fun x => x != b))
          = applyAdds env reg rest := ih reg huniq hdone
        _ = applyAdds env (iscsid_add env b reg).2 rest := by
            rw [hnoop]
        _ = applyAdds env reg (b :: rest) := rfl
    · rw [List.filter_cons_of_pos (by simpa using hba)]
      show applyAdds env (iscsid_add env b reg).2
          (rest.filter (fun x => x != a)) =
        applyAdds env (iscsid_add env b reg).2 rest
      exact ih (iscsid_add env b reg).2
        (iscsid_add_keyUnique env b reg huniq)
        (ArgsDone_mono env a _ _ (iscsid_add_extends env b reg) hdone)

theorem applyAdds_dedupFirst (env : AddEnv) (hok : AllOk env)
    (L : List AddArgs) :
    ∀ reg : Registry, KeyUnique reg →
      applyAdds env reg L = applyAdds env reg (dedupFirst L) := by
  cases L with
  | nil =>
    intro reg _
    rw [dedupFirst]
  | cons a rest =>
    intro reg huniq
    rw [dedupFirst]
    show applyAdds env (iscsid_add env a reg).2 rest =
      applyAdds env (iscsid_add env a reg).2
        (dedupFirst (rest.filter (fun b => b != a)))
    have huniq2 := iscsid_add_keyUnique env a reg huniq
    have hdone2 := iscsid_add_done env a reg hok
    rw [← applyAdds_dedupFirst env hok (rest.filter (fun b => b != a))
      (iscsid_add env a reg).2 huniq2]
    exact (applyAdds_skip env hok a rest (iscsid_add env a reg).2
      huniq2 hdone2).symm
termination_by L.length
decreasing_by
  simp only [List.length_cons]
  have := List.length_filter_le (fun b => b != head) tail
  omega

/-- C2: under the create-or-find contract (no creation fails) and the
key-uniqueness invariant of the registry, iscsid_add is idempotent:
repeating a call with identical arguments changes nothing, and any
sequence of add calls produces the registry of its distinct argument
tuples (each performed once, in first-arrival order). -/
theorem iscsid_add_idempotent (env : AddEnv) (reg : Registry)
    (hok : AllOk env) (huniq : KeyUnique reg) :
    (∀ a, iscsid_add env a (iscsid_add env a reg).2 =
      iscsid_add env a reg) ∧
    (∀ L, applyAdds env reg L = applyAdds env reg (dedupFirst L)) := by
  constructor
  · intro a
    have h2 : iscsid_add env a (iscsid_add env a reg).2 =
        (true, (iscsid_add env a reg).2) :=
      iscsid_add_noop env a _ (iscsid_add_keyUnique env a reg huniq)
        (iscsid_add_done env a reg hok)
    rw [h2, Prod.ext_iff]
    exact ⟨(iscsid_add_fst env a reg hok).symm, rfl⟩
  · intro L
    exact applyAdds_dedupFirst env hok L reg huniq

/-- Witness for the idempotence theorem: adding the same tuple twice to
the empty registry equals performing it once. -/
theorem iscsid_add_idempotent_witness :
    applyAdds addEnvOk [] [addArgsW, addArgsW] =
      applyAdds addEnvOk [] (dedupFirst [addArgsW, addArgsW]) :=
  (iscsid_add_idempotent addEnvOk []
    (fun _ _ => ⟨rfl, rfl⟩) List.Pairwise.nil).2 [addArgsW, addArgsW]

theorem pokeWait_eq_some (bs : List (List (Nat × Bool))) :
    ∀ ev ev', pokeWait ev bs = some ev' → ev' = allDiscoveryMethods := by
  induction bs with
  | nil =>
    intro ev ev' h
    simp only [pokeWait] at h
    split at h
    · cases h; assumption
    · cases h
  | cons b rest ih =>
    intro ev ev' h
    simp only [pokeWait] at h
    split at h
    · cases h; assumption
    · exact ih _ _ h

/-- C5: iscsid_poke_discovery returns only with the completion bitmap
equal to the full four-method mask and hba_discovery_in_progress
false, and a bit can enter the bitmap only through an END event of the
method owning that bit. -/
theorem iscsid_poke_discovery_barrier :
    (∀ (env : PokeEnv) (method : Nat) (batches : List (List (Nat × Bool)))
      (st : HbaDiscState),
      iscsid_poke_discovery env method batches = some st →
      st.hba_discovery_events = allDiscoveryMethods ∧
      st.hba_discovery_in_progress = false) ∧
    (∀ (m : Nat) (start : Bool) (ev b : Nat),
      (discovery_event_bitmap m start ev).testBit b = true →
      ev.testBit b = true ∨ (start = false ∧ m.testBit b = true)) := by
  constructor
  · intro env method batches st h
    simp only [iscsid_poke_discovery] at h
    split at h
    · rename_i ev hev
      cases h
      exact ⟨pokeWait_eq_some _ _ _ hev, rfl⟩
    · cases h
  · intro m start ev b h
    simp only [discovery_event_bitmap] at h
    split_ifs at h with h1 h2 h3 h4 h5 h6 h7 h8 <;>
      first
      | (left; exact h)
      | (rw [Nat.testBit_or] at h
         rcases Bool.or_eq_true_iff.mp h with h9 | h9
         · left; exact h9
         · right
           subst_vars
           simp_all)

/-- Witness for the poke barrier theorem at a concrete input: with no
method enabled in the store the kick phase itself completes the bitmap
and poke returns at once. -/
theorem iscsid_poke_discovery_barrier_witness :
    (HbaDiscState.mk allDiscoveryMethods false).hba_discovery_events =
      allDiscoveryMethods ∧
    (HbaDiscState.mk allDiscoveryMethods false).hba_discovery_in_progress =
      false :=
  iscsid_poke_discovery_barrier.1
    { dm := 0, thrExists := fun _ => true } methodUnknown []
    (HbaDiscState.mk allDiscoveryMethods false) rfl

/-- C4: the discovery-address destruction predicate of iscsid_del is
exactly the spec's predicate: for iSNS and SendTargets a NULL address
or a byte-exact match with sess_discovered_addr, for Static a NULL
address or a byte-exact match with the active connection's base address
(a Static session without active connection never matches a non-NULL
address), vacuous for any other method. -/
theorem tryDestroyAddr_iff_spec (method : Nat) (addrDsc : Option SockAddr)
    (isp : Sess) :
    tryDestroyAddr method addrDsc isp = true ↔
      tryDestroyAddrSpec method addrDsc isp := by
  unfold tryDestroyAddr tryDestroyAddrSpec
  split_ifs with h1 h2
  · cases addrDsc with
    | none => simp
    | some a => simp
  · cases addrDsc with
    | none => simp
    | some a =>
      cases hc : isp.sess_conn_act with
      | none => simp [hc]
      | some c => simp [hc]
  · simp

/-- C3: the number of times isns_scn_callback frees its non-NULL
argument, on every path: one when the HBA soft-state lookup succeeds
(every switch branch falls through to the single kmem_free), zero when
the lookup fails, exhibiting the early return that leaks the argument. -/
theorem isns_scn_callback_arg_frees (env : ScnEnv) (a : ScnArg) :
    (isns_scn_callback env (some a)).2 =
      if env.softStateOk then 1 else 0 := by
  cases hs : env.softStateOk <;>
    cases ht : a.scn_type <;>
      simp [isns_scn_callback, hs, ht]

/-- C8: behavior of iscsid_do_sendtgts for every ioctl outcome: first
call offers capacity 10; an overflow reallocates exactly once to the
reported count and retries; a second overflow (or a failing retry)
abandons the address with no iscsid_add calls; otherwise one
iscsid_add call is issued per returned descriptor. -/
theorem iscsid_do_sendtgts_spec (env : SendTgtsEnv)
    (discAddr : StEntryAddr) (hsoft : env.softStateOk = true) :
    (env.ioctl 10 = none → iscsid_do_sendtgts env discAddr = ([10], [])) ∧
    (∀ tgts, env.ioctl 10 = some tgts → tgts.length ≤ 10 →
      iscsid_do_sendtgts env discAddr =
        ([10], tgts.map (mkSendTgtsAdd discAddr))) ∧
    (∀ tgts, env.ioctl 10 = some tgts → 10 < tgts.length →
      env.ioctl tgts.length = none →
      iscsid_do_sendtgts env discAddr = ([10, tgts.length], [])) ∧
    (∀ tgts tgts2, env.ioctl 10 = some tgts → 10 < tgts.length →
      env.ioctl tgts.length = some tgts2 → tgts.length < tgts2.length →
      iscsid_do_sendtgts env discAddr = ([10, tgts.length], [])) ∧
    (∀ tgts tgts2, env.ioctl 10 = some tgts → 10 < tgts.length →
      env.ioctl tgts.length = some tgts2 → tgts2.length ≤ tgts.length →
      iscsid_do_sendtgts env discAddr =
        ([10, tgts.length], tgts2.map (mkSendTgtsAdd discAddr))) := by
  refine ⟨?_, ?_, ?_, ?_, ?_⟩
  · intro h
    simp [iscsid_do_sendtgts, hsoft, h]
  · intro tgts h hle
    simp [iscsid_do_sendtgts, hsoft, h, Nat.not_lt.mpr hle]
  · intro tgts h hlt h2
    simp [iscsid_do_sendtgts, sendtgtsNoRetry, hsoft, h, hlt, h2]
  · intro tgts tgts2 h hlt h2 hlt2
    simp [iscsid_do_sendtgts, sendtgtsNoRetry, hsoft, h, hlt, h2, hlt2]
  · intro tgts tgts2 h hlt h2 hle2
    simp [iscsid_do_sendtgts, sendtgtsNoRetry, hsoft, h, hlt, h2,
      Nat.not_lt.mpr hle2]

/-- Witness for the SendTargets theorem at the spec's overflow scenario:
17 targets reported against capacity 10, the retry at capacity 17
returns all 17, and all 17 adds are issued. -/
theorem iscsid_do_sendtgts_spec_witness :
    iscsid_do_sendtgts sendTgtsEnvOverflow discAddrW =
      ([10, 17], seventeenTargets.map (mkSendTgtsAdd discAddrW)) := by
  have h := (iscsid_do_sendtgts_spec sendTgtsEnvOverflow discAddrW
    rfl).2.2.2.2 seventeenTargets seventeenTargets rfl (by decide) rfl
    (by decide)
  simpa [seventeenTargets] using h

/-- C9: iscsid_copyto_param_set succeeds exactly on the eleven settable
parameter ids, copying the spec's table field and echoing the id into
s_param; every other id, the three recognized unsettable ones and any
id at or beyond the parameter-count bound included, yields EINVAL with
the record untouched. -/
theorem iscsid_copyto_param_set_spec (params : LoginParams)
    (ipsp : ParamSet) :
    (iscsid_copyto_param_set pDataSequenceInOrder params ipsp =
      (0, { s_param := pDataSequenceInOrder,
            s_value := ParamValue.vbool params.data_pdu_in_order })) ∧
    (iscsid_copyto_param_set pImmediateData params ipsp =
      (0, { s_param := pImmediateData,
            s_value := ParamValue.vbool params.immediate_data })) ∧
    (iscsid_copyto_param_set pInitialR2T params ipsp =
      (0, { s_param := pInitialR2T,
            s_value := ParamValue.vbool params.initial_r2t })) ∧
    (iscsid_copyto_param_set pDataPduInOrder params ipsp =
      (0, { s_param := pDataPduInOrder,
            s_value := ParamValue.vbool params.data_pdu_in_order })) ∧
    (iscsid_copyto_param_set pHeaderDigest params ipsp =
      (0, { s_param := pHeaderDigest,
            s_value := ParamValue.vinteger params.header_digest })) ∧
    (iscsid_copyto_param_set pDataDigest params ipsp =
      (0, { s_param := pDataDigest,
            s_value := ParamValue.vinteger params.data_digest })) ∧
    (iscsid_copyto_param_set pDefaultTime2Retain params ipsp =
      (0, { s_param := pDefaultTime2Retain,
            s_value := ParamValue.vinteger params.default_time_to_retain })) ∧
    (iscsid_copyto_param_set pDefaultTime2Wait params ipsp =
      (0, { s_param := pDefaultTime2Wait,
            s_value := ParamValue.vinteger params.default_time_to_wait })) ∧
    (iscsid_copyto_param_set pMaxRecvDataSegmentLength params ipsp =
      (0, { s_param := pMaxRecvDataSegmentLength,
            s_value := ParamValue.vinteger params.max_recv_data_seg_len })) ∧
    (iscsid_copyto_param_set pFirstBurstLength params ipsp =
      (0, { s_param := pFirstBurstLength,
            s_value := ParamValue.vinteger params.first_burst_length })) ∧
    (iscsid_copyto_param_set pMaxBurstLength params ipsp =
      (0, { s_param := pMaxBurstLength,
            s_value := ParamValue.vinteger params.max_burst_length })) ∧
    (∀ param_id,
      ((iscsid_copyto_param_set param_id params ipsp).1 = 0 ↔
        param_id ∈ settableParamIds) ∧
      (param_id ∉ settableParamIds →
        iscsid_copyto_param_set param_id params ipsp = (EINVAL, ipsp))) := by
  refine ⟨rfl, rfl, rfl, rfl, rfl, rfl, rfl, rfl, rfl, rfl, rfl, ?_⟩
  intro param_id
  by_cases hb : param_id < numLoginParam
  · have hb14 : param_id < 14 := hb
    constructor
    · interval_cases param_id <;>
        simp [iscsid_copyto_param_set, settableParamIds,
          pDataSequenceInOrder, pImmediateData, pInitialR2T,
          pDataPduInOrder, pHeaderDigest, pDataDigest,
          pDefaultTime2Retain, pDefaultTime2Wait,
          pMaxRecvDataSegmentLength, pFirstBurstLength, pMaxBurstLength,
          numLoginParam, EINVAL]
    · intro hmem
      interval_cases param_id <;>
        first
        | rfl
        | (exfalso; apply hmem; simp [settableParamIds,
            pDataSequenceInOrder, pImmediateData, pInitialR2T,
            pDataPduInOrder, pHeaderDigest, pDataDigest,
            pDefaultTime2Retain, pDefaultTime2Wait,
            pMaxRecvDataSegmentLength, pFirstBurstLength,
            pMaxBurstLength])
  · have hge : param_id ≥ numLoginParam := Nat.not_lt.mp hb
    constructor
    · simp only [iscsid_copyto_param_set, if_pos hge]
      constructor
      · intro h
        exact absurd h (by simp [EINVAL])
      · intro h
        exfalso
        have hlt : param_id < numLoginParam := by
          simp only [settableParamIds, pDataSequenceInOrder,
            pImmediateData, pInitialR2T, pDataPduInOrder, pHeaderDigest,
            pDataDigest, pDefaultTime2Retain, pDefaultTime2Wait,
            pMaxRecvDataSegmentLength, pFirstBurstLength, pMaxBurstLength,
            List.mem_cons, List.mem_singleton, List.not_mem_nil,
            or_false, numLoginParam] at h ⊢
          rcases h with h | h | h | h | h | h | h | h | h | h | h <;>
            omega
        omega
    · intro _
      simp only [iscsid_copyto_param_set, if_pos hge]

/-- Witness for the parameter-copy theorem: OUTSTANDING_R2T is rejected
with EINVAL. -/
theorem iscsid_copyto_param_set_spec_witness :
    iscsid_copyto_param_set pOutstandingR2T
        { immediate_data := false, initial_r2t := false,
          data_pdu_in_order := false, data_sequence_in_order := false,
          header_digest := 0, data_digest := 0,
          default_time_to_retain := 0, default_time_to_wait := 0,
          max_recv_data_seg_len := 0, first_burst_length := 0,
          max_burst_length := 0, max_connections := 0,
          max_outstanding_r2t := 0, error_recovery_level := 0 }
        { s_param := 0, s_value := ParamValue.vuntouched } =
      (EINVAL, { s_param := 0, s_value := ParamValue.vuntouched }) :=
  ((iscsid_copyto_param_set_spec _ _).2.2.2.2.2.2.2.2.2.2.2
    pOutstandingR2T).2 (by decide)

end IscsidModel
